import Mathlib

/-!
# Verification of the massage-booking REST API

Shallow embedding of the booking service (`src/main.py`, `src/schemas.py`).

* Pure data (requests, responses, documents) become Lean structures.
* The MongoDB document store becomes an explicit state (`MStore`) threaded
  through every endpoint; each endpoint is a function
  `inputs → MStore → MStore × Except HTTPError response`, where an error
  result models a raised `HTTPException` (which aborts before any write,
  so the store component is returned unchanged).
* Nondeterministic inputs of the real system are explicit parameters:
  the random bytes behind `secrets.token_urlsafe(24)`, the wall clock
  (`datetime.utcnow()` as a `Nat` timestamp), the Twilio environment
  variables and the outcome of the outbound SMS call.
* The store gateway (`database.py` is not part of the sources; only
  `main.py` calls it) is modelled from the spec, §4.1: `insert` returns a
  store-generated opaque id, `findOne`/`updateOne`/`deleteOne`/`deleteMany`
  match documents by field equality in insertion order.  Ids are opaque
  strings (spec §6: "keyed by store-generated opaque ids"); we realise them
  by an injective encoding of an insertion counter, since the code only
  ever compares id strings for equality.
-/

namespace MassageBooking

/-- Python truthiness of an optional string (`if x:` on `Optional[str]`):
true exactly for a present, non-empty string. -/
def truthyStr : Option String → Bool
  | none => false
  | some s => s ≠ ""

/-! ## Data model (`src/schemas.py`) -/

/-- `schemas.Booking` (collection "booking").  `zone`, `currency` and
`status` are `Literal` fields in pydantic; they stay `String` here and the
enumeration is checked by `pydanticValidBooking` at construction time,
which is where pydantic validates.  `amount` is a `float` in the source;
no claim involves float rounding, so it is modelled as an exact `Rat`.
`updated_at` is not declared in the pydantic schema but is added to the
stored document by the `$set` of cancel/modify; it is `none` until then. -/
structure Booking where
  offer_id : String
  offer_title : String
  duration : String
  zone : String
  date : String
  time : String
  name : String
  phone : String
  notes : Option String
  amount : Rat
  currency : String
  status : String
  paypal_order_id : Option String
  sms_confirmed : Bool
  updated_at : Option Nat
deriving DecidableEq

/-- The `Literal` constraints pydantic checks when `Booking(...)` is
constructed in `create_booking`. -/
def pydanticValidBooking (b : Booking) : Bool :=
  (b.zone = "cannes" ∨ b.zone = "hors-cannes") &&
    b.currency = "EUR" &&
    (b.status = "pending" ∨ b.status = "paid" ∨ b.status = "confirmed" ∨
      b.status = "cancelled")

/-- `schemas.CancellationToken` (collection "cancellationtoken"). -/
structure CancellationToken where
  booking_id : String
  token : String
deriving DecidableEq

/-- A document of one of the two collections. -/
inductive Doc where
  | booking (b : Booking)
  | ctoken (t : CancellationToken)
deriving DecidableEq

/-! ## `secrets.token_urlsafe(24)`

24 random bytes, base64url-encoded (8 full groups of 3 bytes, hence 32
characters and no padding).  The random bytes are an explicit input. -/

def b64UrlAlphabet : List Char :=
  [ 'A', 'B', 'C', 'D', 'E', 'F', 'G', 'H', 'I', 'J', 'K', 'L', 'M',
    'N', 'O', 'P', 'Q', 'R', 'S', 'T', 'U', 'V', 'W', 'X', 'Y', 'Z',
    'a', 'b', 'c', 'd', 'e', 'f', 'g', 'h', 'i', 'j', 'k', 'l', 'm',
    'n', 'o', 'p', 'q', 'r', 's', 't', 'u', 'v', 'w', 'x', 'y', 'z',
    '0', '1', '2', '3', '4', '5', '6', '7', '8', '9', '-', '_' ]

def b64UrlChar (n : Nat) : Char := b64UrlAlphabet.getD (n % 64) 'A'

/-- One 3-byte group encoded as 4 base64url characters. -/
def b64Group (a b c : Nat) : List Char :=
  [ b64UrlChar (a / 4),
    b64UrlChar ((a % 4) * 16 + b / 16),
    b64UrlChar ((b % 16) * 4 + c / 64),
    b64UrlChar (c % 64) ]

def b64UrlEncode : List Nat → List Char
  | a :: b :: c :: rest => b64Group a b c ++ b64UrlEncode rest
  | [a, b] => [b64UrlChar (a / 4), b64UrlChar ((a % 4) * 16 + b / 16),
      b64UrlChar ((b % 16) * 4)]
  | [a] => [b64UrlChar (a / 4), b64UrlChar ((a % 4) * 16)]
  | [] => []

/-- `secrets.token_urlsafe(24)`: `rand i` is the i-th random byte. -/
def token_urlsafe24 (rand : Nat → Nat) : String :=
  String.mk (b64UrlEncode ((List.range 24).map (fun i => rand i % 256)))

/-! ## Document store (modelled from the spec, §4.1 and §6)

`database.py` is not under the sources; per spec §4.1 the gateway offers
`insert` (returning a fresh opaque id), `findOne`, `updateOne`,
`deleteOne`, `deleteMany`.  Collections are an association list from
collection name to documents in insertion order; ids encode an insertion
counter injectively. -/

/-- Modelled from the spec: the store-generated opaque id of the k-th
inserted document (spec §6, "keyed by store-generated opaque ids"; the
source only compares id strings for equality, so any injective encoding
is faithful). -/
def freshId (k : Nat) : String := String.mk (List.replicate (k + 1) 'i')

/-- Well-formedness of an id string, modelling the check performed by
`bson.objectid.ObjectId(s)` (which raises, surfacing as HTTP 500, on a
malformed id). -/
def isValidId (s : String) : Bool := !s.data.isEmpty && s.data.all (· = 'i')

/-- The store: an insertion counter (source of fresh ids) and the
collections. -/
structure MStore where
  counter : Nat
  colls : List (String × List (String × Doc))
deriving DecidableEq

def emptyStore : MStore := ⟨0, []⟩

def assocGet (l : List (String × List (String × Doc))) (c : String) :
    List (String × Doc) :=
  match l with
  | [] => []
  | (k, v) :: rest => if k = c then v else assocGet rest c

def assocSet (l : List (String × List (String × Doc))) (c : String)
    (nv : List (String × Doc)) : List (String × List (String × Doc)) :=
  match l with
  | [] => [(c, nv)]
  | (k, v) :: rest => if k = c then (c, nv) :: rest else (k, v) :: assocSet rest c nv

def getColl (s : MStore) (c : String) : List (String × Doc) := assocGet s.colls c

def setColl (s : MStore) (c : String) (l : List (String × Doc)) : MStore :=
  { s with colls := assocSet s.colls c l }

/-- Modelled from the spec: `insert(collection, document) -> id`
(`database.create_document`); appends the document under a fresh id. -/
def create_document (c : String) (d : Doc) (s : MStore) : String × MStore :=
  let id := freshId s.counter
  (id, setColl { s with counter := s.counter + 1 } c (getColl s c ++ [(id, d)]))

/-- The filters `main.py` passes to the store: `{"_id": ObjectId(id)}`,
`{"booking_id": b, "token": t}` and `{"booking_id": b}`.  A filter on a
field the document does not have matches nothing. -/
inductive Filter where
  | byId (id : String)
  | byBookingToken (booking_id tokenQ : String)
  | byBookingId (booking_id : String)

def Filter.matches : Filter → String → Doc → Bool
  | .byId i, id, _ => id = i
  | .byBookingToken b t, _, .ctoken c => c.booking_id = b && c.token = t
  | .byBookingToken _ _, _, .booking _ => false
  | .byBookingId b, _, .ctoken c => c.booking_id = b
  | .byBookingId _, _, .booking _ => false

/-- Modelled from the spec: `findOne` returns the first matching document
in insertion (natural) order, or none. -/
def find_one (s : MStore) (c : String) (f : Filter) : Option (String × Doc) :=
  (getColl s c).find? (fun p => f.matches p.1 p.2)

/-- The `$set` payloads used by `main.py` (only these fields ever appear). -/
structure SetPatch where
  status : Option String := none
  date : Option String := none
  time : Option String := none
  updated_at : Option Nat := none
deriving DecidableEq

/-- Apply a `$set` to a document.  Only booking documents are ever the
target of an update in the source. -/
def applySet (p : SetPatch) : Doc → Doc
  | .booking b => .booking { b with
      status := p.status.getD b.status,
      date := p.date.getD b.date,
      time := p.time.getD b.time,
      updated_at := match p.updated_at with
        | some t => some t
        | none => b.updated_at }
  | .ctoken t => .ctoken t

def updateFirst (f : Filter) (p : SetPatch) :
    List (String × Doc) → Nat × List (String × Doc)
  | [] => (0, [])
  | (i, d) :: rest =>
    if f.matches i d then
      ((if applySet p d = d then 0 else 1), (i, applySet p d) :: rest)
    else
      let r := updateFirst f p rest
      (r.1, (i, d) :: r.2)

/-- Modelled from the spec: `updateOne` patches the first matching
document and reports Mongo's `modified_count` (0 when the patch leaves
the document unchanged). -/
def update_one (s : MStore) (c : String) (f : Filter) (p : SetPatch) :
    Nat × MStore :=
  let r := updateFirst f p (getColl s c)
  (r.1, setColl s c r.2)

def deleteFirst (f : Filter) :
    List (String × Doc) → Nat × List (String × Doc)
  | [] => (0, [])
  | (i, d) :: rest =>
    if f.matches i d then (1, rest)
    else
      let r := deleteFirst f rest
      (r.1, (i, d) :: r.2)

/-- Modelled from the spec: `deleteOne` removes the first matching
document, returning `deleted_count` (0 or 1). -/
def delete_one (s : MStore) (c : String) (f : Filter) : Nat × MStore :=
  let r := deleteFirst f (getColl s c)
  (r.1, setColl s c r.2)

/-- Modelled from the spec: `deleteMany` removes every matching document. -/
def delete_many (s : MStore) (c : String) (f : Filter) : Nat × MStore :=
  let l := getColl s c
  (l.countP (fun p => f.matches p.1 p.2),
    setColl s c (l.filter (fun p => !f.matches p.1 p.2)))

/-! ## Endpoint layer (`src/main.py`)

Each handler is a function of its inputs and the store, returning the
(possibly updated) store together with either a response or the
`HTTPException` it raises.  The `db is None` (store never configured)
branch of every handler returns HTTP 500 before anything else; all
claims concern the configured store, so the handlers below model the
configured path. -/

/-- A raised `fastapi.HTTPException` (or an uncaught error surfacing as
HTTP 500): status code and detail message. -/
structure HTTPError where
  status_code : Nat
  detail : String
deriving DecidableEq

/-- `CreateBookingRequest` from `main.py` (body of `POST /api/bookings`). -/
structure CreateBookingRequest where
  offerId : String
  offerTitle : String
  duration : String
  zone : String
  date : String
  time : String
  name : String
  phone : String
  notes : Option String := none
  amount : Rat
  currency : String := "EUR"
  paypalOrderId : Option String := none
deriving DecidableEq

/-- `BookingResponse` from `main.py`. -/
structure BookingResponse where
  id : String
  status : String
  smsSent : Bool
  paypalOrderId : Option String := none
  cancelUrl : Option String := none
  modifyUrl : Option String := none
  token : Option String := none
deriving DecidableEq

/-- Body of the cancel/modify responses: `{"ok": True, "modified": n}`. -/
structure OkModified where
  ok : Bool
  modified : Nat
deriving DecidableEq

/-- Body of the delete response: `{"ok": True, "deleted": n}`. -/
structure OkDeleted where
  ok : Bool
  deleted : Nat
deriving DecidableEq

/-- The three Twilio environment variables read in `create_booking`
(`None` models an unset variable). -/
structure TwilioEnv where
  account_sid : Option String
  auth_token : Option String
  from_number : Option String

/-- `if tw_sid and tw_token and tw_from:` — all three credentials present
and non-empty (Python truthiness). -/
def twilioConfigured (e : TwilioEnv) : Bool :=
  truthyStr e.account_sid && truthyStr e.auth_token && truthyStr e.from_number

/-- Outcome of the whole guarded SMS block: `sms_sent` is true iff the
credentials are configured and the outbound Twilio call succeeded
(`transportOk`); any exception — import failure, network, auth,
rate-limit — is swallowed by the `except` and leaves `sms_sent = False`. -/
def attemptSms (e : TwilioEnv) (transportOk : Bool) : Bool :=
  if twilioConfigured e then transportOk else false

/-- `BASE_URL.rstrip('/')`. -/
def rstripSlash (s : String) : String :=
  String.mk ((s.data.reverse.dropWhile (· = '/')).reverse)

/-- `_public_link`: `f"{BASE_URL.rstrip('/')}{path}" if BASE_URL else None`. -/
def public_link (baseUrl path : String) : Option String :=
  if baseUrl ≠ "" then some (rstripSlash baseUrl ++ path) else none

/-- The `Booking(...)` document built in `create_booking` (lines 94-108):
`status` is `'confirmed' if payload.paypalOrderId else 'pending'` —
Python truthiness, so a present-but-empty reference yields `'pending'`. -/
def mkBookingDoc (p : CreateBookingRequest) : Booking :=
  { offer_id := p.offerId
    offer_title := p.offerTitle
    duration := p.duration
    zone := p.zone
    date := p.date
    time := p.time
    name := p.name
    phone := p.phone
    notes := p.notes
    amount := p.amount
    currency := p.currency
    status := if truthyStr p.paypalOrderId then "confirmed" else "pending"
    paypal_order_id := p.paypalOrderId
    sms_confirmed := false
    updated_at := none }

/-- `POST /api/bookings` (`create_booking`, lines 89-152).  Inputs beyond
the payload: the configured public base URL, the Twilio environment, the
outcome of the outbound SMS call, and the random bytes behind
`secrets.token_urlsafe(24)`.  A pydantic `ValidationError` from the
`Booking(...)` constructor escapes the handler as HTTP 500. -/
def create_booking (baseUrl : String) (env : TwilioEnv) (transportOk : Bool)
    (rand : Nat → Nat) (payload : CreateBookingRequest) (s : MStore) :
    MStore × Except HTTPError BookingResponse :=
  let doc := mkBookingDoc payload
  if pydanticValidBooking doc then
    let r1 := create_document "booking" (.booking doc) s
    let booking_id := r1.1
    let token := token_urlsafe24 rand
    let r2 := create_document "cancellationtoken"
      (.ctoken ⟨booking_id, token⟩) r1.2
    let cancel_url := public_link baseUrl
      ("/api/bookings/" ++ booking_id ++ "/cancel?token=" ++ token)
    let modify_url := public_link baseUrl
      ("/api/bookings/" ++ booking_id ++ "/modify?token=" ++ token)
    let sms_sent := attemptSms env transportOk
    (r2.2, .ok
      { id := booking_id
        status := doc.status
        smsSent := sms_sent
        paypalOrderId := doc.paypal_order_id
        cancelUrl := cancel_url
        modifyUrl := modify_url
        token := some token })
  else
    (s, .error ⟨500, "Internal Server Error"⟩)

/-- The authorization check shared by cancel/modify/delete (spec §4.3
`authorize`): an exact-match lookup in the `cancellationtoken`
collection. -/
def authorize (s : MStore) (booking_id tokenQ : String) : Bool :=
  (find_one s "cancellationtoken" (.byBookingToken booking_id tokenQ)).isSome

/-- `POST /api/bookings/{booking_id}/cancel` (lines 154-162).  `tokenQ`
is the `token` query parameter (`""` when absent); `now` is
`datetime.utcnow()`.  `ObjectId(booking_id)` raising on a malformed id
surfaces as HTTP 500. -/
def cancel_booking (booking_id tokenQ : String) (now : Nat) (s : MStore) :
    MStore × Except HTTPError OkModified :=
  match find_one s "cancellationtoken" (.byBookingToken booking_id tokenQ) with
  | none => (s, .error ⟨403, "Invalid token"⟩)
  | some _ =>
    if isValidId booking_id then
      let r := update_one s "booking" (.byId booking_id)
        { status := some "cancelled", updated_at := some now }
      (r.2, .ok ⟨true, r.1⟩)
    else
      (s, .error ⟨500, "Internal Server Error"⟩)

/-- `POST /api/bookings/{booking_id}/modify` (lines 164-180).  The
`updates` dict gains `date`/`time` only when truthy (`if date:`); an
empty dict raises 400 before any store write; otherwise `updated_at` is
always set alongside. -/
def modify_booking (booking_id tokenQ : String) (date time : Option String)
    (now : Nat) (s : MStore) : MStore × Except HTTPError OkModified :=
  match find_one s "cancellationtoken" (.byBookingToken booking_id tokenQ) with
  | none => (s, .error ⟨403, "Invalid token"⟩)
  | some _ =>
    if truthyStr date || truthyStr time then
      if isValidId booking_id then
        let r := update_one s "booking" (.byId booking_id)
          { date := if truthyStr date then date else none
            time := if truthyStr time then time else none
            updated_at := some now }
        (r.2, .ok ⟨true, r.1⟩)
      else
        (s, .error ⟨500, "Internal Server Error"⟩)
    else
      (s, .error ⟨400, "No changes provided"⟩)

/-- `DELETE /api/bookings/{booking_id}` (lines 182-191): delete the
booking, then every token referencing it; return the booking
`deleted_count`. -/
def delete_booking (booking_id tokenQ : String) (s : MStore) :
    MStore × Except HTTPError OkDeleted :=
  match find_one s "cancellationtoken" (.byBookingToken booking_id tokenQ) with
  | none => (s, .error ⟨403, "Invalid token"⟩)
  | some _ =>
    if isValidId booking_id then
      let r1 := delete_one s "booking" (.byId booking_id)
      let r2 := delete_many r1.2 "cancellationtoken" (.byBookingId booking_id)
      (r2.2, .ok ⟨true, r1.1⟩)
    else
      (s, .error ⟨500, "Internal Server Error"⟩)

/-- Observer: the booking document stored under a given id (first match
in natural order, as `findOne` would return it). -/
def storedBooking (s : MStore) (id : String) : Option Booking :=
  match (getColl s "booking").find? (fun p => p.1 = id) with
  | some (_, .booking b) => some b
  | _ => none

/-- The store produced by a successful `create_booking` (booking inserted,
then its cancellation token), as a standalone abbreviation. -/
def createStore (rand : Nat → Nat) (p : CreateBookingRequest) (s : MStore) : MStore :=
  (create_document "cancellationtoken"
    (.ctoken ⟨freshId s.counter, token_urlsafe24 rand⟩)
    (create_document "booking" (.booking (mkBookingDoc p)) s).2).2

/-! ## Reachable stores and their invariant -/

/-- Invariant of every store reachable through the API from an empty
database: booking documents are keyed by distinct generated ids below the
counter, hold `Booking` values with `sms_confirmed = false`, and every
token document holds a `CancellationToken` whose token string has length
32 (`secrets.token_urlsafe(24)`) and whose `booking_id` is the id of a
booking still present in the store. -/
structure Inv (s : MStore) : Prop where
  booking_keys : ∀ q ∈ getColl s "booking", ∃ k, q.1 = freshId k ∧ k < s.counter
  booking_docs : ∀ q ∈ getColl s "booking",
    ∃ b, q.2 = Doc.booking b ∧ b.sms_confirmed = false
  booking_nodup : ((getColl s "booking").map Prod.fst).Nodup
  tokens_ok : ∀ q ∈ getColl s "cancellationtoken",
    ∃ t, q.2 = Doc.ctoken t ∧ t.token.length = 32 ∧
      ∃ k, t.booking_id = freshId k ∧ k < s.counter ∧
        t.booking_id ∈ (getColl s "booking").map Prod.fst

/-- The stores reachable by running the four endpoints from an empty
database. -/
inductive Reachable : MStore → Prop
  | empty : Reachable emptyStore
  | create (baseUrl : String) (env : TwilioEnv) (transportOk : Bool)
      (rand : Nat → Nat) (p : CreateBookingRequest) {s : MStore}
      (hs : Reachable s) :
      Reachable (create_booking baseUrl env transportOk rand p s).1
  | cancel (bid tq : String) (now : Nat) {s : MStore} (hs : Reachable s) :
      Reachable (cancel_booking bid tq now s).1
  | modify (bid tq : String) (date time : Option String) (now : Nat)
      {s : MStore} (hs : Reachable s) :
      Reachable (modify_booking bid tq date time now s).1
  | delete (bid tq : String) {s : MStore} (hs : Reachable s) :
      Reachable (delete_booking bid tq s).1

/-! ## Concrete inputs used to exercise the model -/

/-- The example creation request of spec §8 (no payment-order reference). -/
def payloadA : CreateBookingRequest :=
  { offerId := "o1"
    offerTitle := "Relax"
    duration := "60min"
    zone := "cannes"
    date := "2025-06-01"
    time := "14:30"
    name := "Alice"
    phone := "+33600000000"
    amount := 80 }

/-- A creation request whose payment-order reference is present but is
the empty string. -/
def payloadEmptyRef : CreateBookingRequest :=
  { payloadA with paypalOrderId := some "" }

/-- A creation request with a non-empty payment-order reference. -/
def payloadPaid : CreateBookingRequest :=
  { payloadA with paypalOrderId := some "PAYPAL-1" }

/-- No Twilio environment variable set. -/
def envNone : TwilioEnv := ⟨none, none, none⟩

/-- All three Twilio environment variables set and non-empty. -/
def envFull : TwilioEnv := ⟨some "sid", some "secret", some "+10000000000"⟩

/-- A fixed random source: every byte is 0 (the resulting token is 32
copies of 'A'). -/
def rand0 : Nat → Nat := fun _ => 0

/-- The store after creating `payloadA` in an empty database. -/
def storeA : MStore := (create_booking "" envNone false rand0 payloadA emptyStore).1

/-- The token issued by that creation. -/
def tokA : String := token_urlsafe24 rand0

/-! ## Basic lemmas -/

theorem freshId_length (k : Nat) : (freshId k).length = k + 1 := by
  simp [freshId, String.length]

theorem freshId_inj {k k' : Nat} (h : freshId k = freshId k') : k = k' := by
  have := congrArg String.length h
  rwa [freshId_length, freshId_length, Nat.add_right_cancel_iff] at this

theorem isValidId_freshId (k : Nat) : isValidId (freshId k) = true := by
  simp only [isValidId, freshId, List.replicate_succ, Bool.and_eq_true,
    Bool.not_eq_true', List.isEmpty_cons, List.all_eq_true]
  refine ⟨trivial, ?_⟩
  intro c hc
  rcases List.mem_cons.mp hc with rfl | hc'
  · simp
  · simp [List.eq_of_mem_replicate hc']

theorem token_urlsafe24_length (rand : Nat → Nat) :
    (token_urlsafe24 rand).length = 32 := rfl

theorem assocGet_assocSet_self (l : List (String × List (String × Doc)))
    (c : String) (v : List (String × Doc)) :
    assocGet (assocSet l c v) c = v := by
  induction l with
  | nil => simp [assocGet, assocSet]
  | cons kv rest ih =>
    obtain ⟨k, w⟩ := kv
    by_cases h : k = c <;> simp [assocGet, assocSet, h, ih]

theorem assocGet_assocSet_ne (l : List (String × List (String × Doc)))
    {c c' : String} (h : c ≠ c') (v : List (String × Doc)) :
    assocGet (assocSet l c v) c' = assocGet l c' := by
  induction l with
  | nil => simp [assocGet, assocSet, h]
  | cons kv rest ih =>
    obtain ⟨k, w⟩ := kv
    by_cases hk : k = c
    · subst hk
      simp [assocGet, assocSet, h]
    · by_cases hk' : k = c'
      · simp [assocGet, assocSet, hk', Ne.symm h]
      · simp [assocGet, assocSet, hk, hk', ih]

theorem getColl_setColl_self (s : MStore) (c : String) (l : List (String × Doc)) :
    getColl (setColl s c l) c = l :=
  assocGet_assocSet_self s.colls c l

theorem getColl_setColl_ne (s : MStore) {c c' : String} (h : c ≠ c')
    (l : List (String × Doc)) : getColl (setColl s c l) c' = getColl s c' :=
  assocGet_assocSet_ne s.colls h l

theorem counter_setColl (s : MStore) (c : String) (l : List (String × Doc)) :
    (setColl s c l).counter = s.counter := rfl

theorem getColl_create_document_self (c : String) (d : Doc) (s : MStore) :
    getColl (create_document c d s).2 c = getColl s c ++ [(freshId s.counter, d)] := by
  simp only [create_document]
  rw [getColl_setColl_self]

theorem getColl_create_document_ne {c c' : String} (h : c ≠ c') (d : Doc)
    (s : MStore) : getColl (create_document c d s).2 c' = getColl s c' := by
  simp only [create_document]
  rw [getColl_setColl_ne _ h]
  simp [getColl]

theorem counter_create_document (c : String) (d : Doc) (s : MStore) :
    (create_document c d s).2.counter = s.counter + 1 := rfl

/-! ## List-level lemmas about `updateFirst` / `deleteFirst` -/

theorem updateFirst_keys (f : Filter) (p : SetPatch) (l : List (String × Doc)) :
    ((updateFirst f p l).2).map Prod.fst = l.map Prod.fst := by
  induction l with
  | nil => rfl
  | cons e rest ih =>
    obtain ⟨i, d⟩ := e
    by_cases h : f.matches i d <;> simp [updateFirst, h, ih]

theorem mem_updateFirst {f : Filter} {p : SetPatch} {l : List (String × Doc)}
    {q : String × Doc} (hq : q ∈ (updateFirst f p l).2) :
    q ∈ l ∨ ∃ d, (q.1, d) ∈ l ∧ q.2 = applySet p d := by
  induction l with
  | nil => simp [updateFirst] at hq
  | cons e rest ih =>
    obtain ⟨i, d⟩ := e
    by_cases h : f.matches i d
    · have he : (updateFirst f p ((i, d) :: rest)).2 = (i, applySet p d) :: rest := by
        simp [updateFirst, h]
      rw [he, List.mem_cons] at hq
      rcases hq with hq | hq
      · right
        exact ⟨d, by simp [hq], by simp [hq]⟩
      · left
        exact List.mem_cons_of_mem _ hq
    · have he : (updateFirst f p ((i, d) :: rest)).2 =
          (i, d) :: (updateFirst f p rest).2 := by
        simp [updateFirst, h]
      rw [he, List.mem_cons] at hq
      rcases hq with hq | hq
      · left
        simp [hq]
      · rcases ih hq with h' | ⟨d', hd, he'⟩
        · exact Or.inl (List.mem_cons_of_mem _ h')
        · exact Or.inr ⟨d', List.mem_cons_of_mem _ hd, he'⟩

theorem find?_updateFirst_byId (i : String) (p : SetPatch)
    (l : List (String × Doc)) :
    ((updateFirst (.byId i) p l).2).find? (fun q => q.1 = i) =
      (l.find? (fun q => q.1 = i)).map (fun q => (q.1, applySet p q.2)) := by
  induction l with
  | nil => rfl
  | cons e rest ih =>
    obtain ⟨j, d⟩ := e
    by_cases h : j = i
    · simp [updateFirst, Filter.matches, h, List.find?_cons]
    · simp [updateFirst, Filter.matches, h, List.find?_cons, ih]

theorem deleteFirst_sublist (f : Filter) (l : List (String × Doc)) :
    (deleteFirst f l).2.Sublist l := by
  induction l with
  | nil => simp [deleteFirst]
  | cons e rest ih =>
    obtain ⟨i, d⟩ := e
    by_cases h : f.matches i d
    · simp only [deleteFirst, h, if_true]
      exact List.sublist_cons_of_sublist _ (List.Sublist.refl _)
    · simp only [deleteFirst, h, if_false]
      exact List.Sublist.cons₂ _ ih

theorem mem_deleteFirst_of_not_matches {f : Filter} {l : List (String × Doc)}
    {q : String × Doc} (hq : q ∈ l) (hm : ¬ f.matches q.1 q.2) :
    q ∈ (deleteFirst f l).2 := by
  induction l with
  | nil => simp at hq
  | cons e rest ih =>
    obtain ⟨i, d⟩ := e
    by_cases h : f.matches i d
    · simp only [deleteFirst, h, if_true]
      rcases List.mem_cons.mp hq with rfl | hq'
      · exact absurd h hm
      · exact hq'
    · simp only [deleteFirst, h, if_false]
      rcases List.mem_cons.mp hq with rfl | hq'
      · exact List.mem_cons_self _ _
      · exact List.mem_cons_of_mem _ (ih hq')

theorem deleteFirst_count_one {i : String} {d : Doc} {l : List (String × Doc)}
    (h : (i, d) ∈ l) : (deleteFirst (.byId i) l).1 = 1 := by
  induction l with
  | nil => simp at h
  | cons e rest ih =>
    obtain ⟨j, d'⟩ := e
    by_cases hm : Filter.matches (.byId i) j d'
    · simp [deleteFirst, hm]
    · have he : deleteFirst (.byId i) ((j, d') :: rest) =
          ((deleteFirst (.byId i) rest).1, (j, d') :: (deleteFirst (.byId i) rest).2) := by
        simp [deleteFirst, hm]
      rw [he]
      rcases List.mem_cons.mp h with he' | h'
      · injection he' with h1 h2
        subst h1
        simp [Filter.matches] at hm
      · exact ih h'

theorem find?_deleteFirst_byId_of_nodup {i : String} {l : List (String × Doc)}
    (hn : (l.map Prod.fst).Nodup) :
    ((deleteFirst (.byId i) l).2).find? (fun q => q.1 = i) = none := by
  induction l with
  | nil => rfl
  | cons e rest ih =>
    obtain ⟨j, d⟩ := e
    simp only [List.map_cons, List.nodup_cons] at hn
    by_cases h : j = i
    · subst h
      have he : (deleteFirst (.byId j) ((j, d) :: rest)).2 = rest := by
        simp [deleteFirst, Filter.matches]
      rw [he, List.find?_eq_none]
      intro q hq
      have hmem : q.1 ∈ rest.map Prod.fst := List.mem_map_of_mem _ hq
      simp only [decide_eq_true_eq]
      intro hqi
      exact hn.1 (by rwa [hqi] at hmem)
    · have he : (deleteFirst (.byId i) ((j, d) :: rest)).2 =
          (j, d) :: (deleteFirst (.byId i) rest).2 := by
        simp [deleteFirst, Filter.matches, h]
      rw [he]
      simp [List.find?_cons, h, ih hn.2]

/-! ## Invariant preservation -/

theorem inv_create (baseUrl : String) (env : TwilioEnv) (transportOk : Bool)
    (rand : Nat → Nat) (p : CreateBookingRequest) {s : MStore} (hI : Inv s) :
    Inv (create_booking baseUrl env transportOk rand p s).1 := by
  by_cases hv : pydanticValidBooking (mkBookingDoc p) = true
  case neg =>
    have he : (create_booking baseUrl env transportOk rand p s).1 = s := by
      simp [create_booking, hv]
    rwa [he]
  case pos =>
  have hne : ("booking" : String) ≠ "cancellationtoken" := by decide
  have hne' : ("cancellationtoken" : String) ≠ "booking" := by decide
  have he : (create_booking baseUrl env transportOk rand p s).1 =
      (create_document "cancellationtoken"
        (.ctoken ⟨freshId s.counter, token_urlsafe24 rand⟩)
        (create_document "booking" (.booking (mkBookingDoc p)) s).2).2 := by
    simp [create_booking, hv, create_document]
  rw [he]
  have hB : getColl (create_document "cancellationtoken"
      (.ctoken ⟨freshId s.counter, token_urlsafe24 rand⟩)
      (create_document "booking" (.booking (mkBookingDoc p)) s).2).2 "booking" =
      getColl s "booking" ++ [(freshId s.counter, Doc.booking (mkBookingDoc p))] := by
    rw [getColl_create_document_ne hne', getColl_create_document_self]
  have hT : getColl (create_document "cancellationtoken"
      (.ctoken ⟨freshId s.counter, token_urlsafe24 rand⟩)
      (create_document "booking" (.booking (mkBookingDoc p)) s).2).2 "cancellationtoken" =
      getColl s "cancellationtoken" ++
        [(freshId (s.counter + 1),
          Doc.ctoken ⟨freshId s.counter, token_urlsafe24 rand⟩)] := by
    rw [getColl_create_document_self, getColl_create_document_ne hne,
      counter_create_document]
  have hcnt : (create_document "cancellationtoken"
      (.ctoken ⟨freshId s.counter, token_urlsafe24 rand⟩)
      (create_document "booking" (.booking (mkBookingDoc p)) s).2).2.counter =
      s.counter + 2 := rfl
  refine ⟨?_, ?_, ?_, ?_⟩
  · intro q hq
    rw [hB] at hq
    rcases List.mem_append.mp hq with h | h
    · obtain ⟨k, hk1, hk2⟩ := hI.booking_keys q h
      exact ⟨k, hk1, by rw [hcnt]; omega⟩
    · rw [List.mem_singleton] at h
      exact ⟨s.counter, by rw [h], by rw [hcnt]; omega⟩
  · intro q hq
    rw [hB] at hq
    rcases List.mem_append.mp hq with h | h
    · exact hI.booking_docs q h
    · rw [List.mem_singleton] at h
      exact ⟨mkBookingDoc p, by rw [h], rfl⟩
  · rw [hB, List.map_append]
    refine List.Nodup.append hI.booking_nodup (by simp) ?_
    intro a ha hb
    simp only [List.map_cons, List.map_nil, List.mem_singleton] at hb
    obtain ⟨q, hq, hqa⟩ := List.mem_map.mp ha
    obtain ⟨k, hk1, hk2⟩ := hI.booking_keys q hq
    rw [← hqa, hk1] at hb
    exact absurd (freshId_inj hb) (Nat.ne_of_lt hk2)
  · intro q hq
    rw [hT] at hq
    rcases List.mem_append.mp hq with h | h
    · obtain ⟨t, ht1, ht2, k, hk1, hk2, hk3⟩ := hI.tokens_ok q h
      refine ⟨t, ht1, ht2, k, hk1, by rw [hcnt]; omega, ?_⟩
      rw [hB, List.map_append]
      exact List.mem_append_left _ hk3
    · rw [List.mem_singleton] at h
      refine ⟨⟨freshId s.counter, token_urlsafe24 rand⟩, by rw [h],
        token_urlsafe24_length rand, s.counter, rfl, by rw [hcnt]; omega, ?_⟩
      rw [hB, List.map_append]
      exact List.mem_append_right _ (by simp)

theorem inv_update_one (bid : String) (p : SetPatch) {s : MStore} (hI : Inv s) :
    Inv (update_one s "booking" (.byId bid) p).2 := by
  have hne : ("booking" : String) ≠ "cancellationtoken" := by decide
  have hB : getColl (update_one s "booking" (.byId bid) p).2 "booking" =
      (updateFirst (.byId bid) p (getColl s "booking")).2 := by
    simp only [update_one]
    exact getColl_setColl_self ..
  have hT : getColl (update_one s "booking" (.byId bid) p).2 "cancellationtoken" =
      getColl s "cancellationtoken" := by
    simp only [update_one]
    exact getColl_setColl_ne _ hne _
  have hcnt : (update_one s "booking" (.byId bid) p).2.counter = s.counter := rfl
  refine ⟨?_, ?_, ?_, ?_⟩
  · intro q hq
    rw [hB] at hq
    rcases mem_updateFirst hq with h | ⟨d, hd, _⟩
    · rw [hcnt]
      exact hI.booking_keys q h
    · rw [hcnt]
      exact hI.booking_keys (q.1, d) hd
  · intro q hq
    rw [hB] at hq
    rcases mem_updateFirst hq with h | ⟨d, hd, he⟩
    · exact hI.booking_docs q h
    · obtain ⟨b, hb1, hb2⟩ := hI.booking_docs (q.1, d) hd
      refine ⟨{ b with
          status := p.status.getD b.status,
          date := p.date.getD b.date,
          time := p.time.getD b.time,
          updated_at := match p.updated_at with
            | some t => some t
            | none => b.updated_at }, ?_, hb2⟩
      rw [he]
      simp only at hb1
      rw [hb1]
      rfl
  · rw [hB, updateFirst_keys]
    exact hI.booking_nodup
  · intro q hq
    rw [hT] at hq
    obtain ⟨t, ht1, ht2, k, hk1, hk2, hk3⟩ := hI.tokens_ok q hq
    refine ⟨t, ht1, ht2, k, hk1, by rw [hcnt]; exact hk2, ?_⟩
    rw [hB, updateFirst_keys]
    exact hk3

theorem inv_delete_core (bid : String) {s : MStore} (hI : Inv s) :
    Inv (delete_many (delete_one s "booking" (.byId bid)).2
      "cancellationtoken" (.byBookingId bid)).2 := by
  have hne : ("booking" : String) ≠ "cancellationtoken" := by decide
  have hne' : ("cancellationtoken" : String) ≠ "booking" := by decide
  have hB : getColl (delete_many (delete_one s "booking" (.byId bid)).2
      "cancellationtoken" (.byBookingId bid)).2 "booking" =
      (deleteFirst (.byId bid) (getColl s "booking")).2 := by
    simp only [delete_many, delete_one]
    rw [getColl_setColl_ne _ hne']
    rw [getColl_setColl_self]
  have hT : getColl (delete_many (delete_one s "booking" (.byId bid)).2
      "cancellationtoken" (.byBookingId bid)).2 "cancellationtoken" =
      (getColl s "cancellationtoken").filter
        (fun q => !(Filter.byBookingId bid).matches q.1 q.2) := by
    simp only [delete_many, delete_one]
    rw [getColl_setColl_self]
    rw [getColl_setColl_ne _ hne]
  have hcnt : (delete_many (delete_one s "booking" (.byId bid)).2
      "cancellationtoken" (.byBookingId bid)).2.counter = s.counter := rfl
  have hsub := deleteFirst_sublist (.byId bid) (getColl s "booking")
  refine ⟨?_, ?_, ?_, ?_⟩
  · intro q hq
    rw [hB] at hq
    rw [hcnt]
    exact hI.booking_keys q (hsub.subset hq)
  · intro q hq
    rw [hB] at hq
    exact hI.booking_docs q (hsub.subset hq)
  · rw [hB]
    exact hI.booking_nodup.sublist (hsub.map Prod.fst)
  · intro q hq
    rw [hT] at hq
    obtain ⟨hmem, hflt⟩ := List.mem_filter.mp hq
    obtain ⟨t, ht1, ht2, k, hk1, hk2, hk3⟩ := hI.tokens_ok q hmem
    refine ⟨t, ht1, ht2, k, hk1, by rw [hcnt]; exact hk2, ?_⟩
    have hbid : t.booking_id ≠ bid := by
      rw [ht1] at hflt
      simpa [Filter.matches] using hflt
    obtain ⟨e, he1, he2⟩ := List.mem_map.mp hk3
    rw [hB]
    refine List.mem_map.mpr ⟨e, ?_, he2⟩
    refine mem_deleteFirst_of_not_matches he1 ?_
    simp only [Filter.matches]
    rw [he2]
    simp [hbid]

theorem inv_cancel (bid tq : String) (now : Nat) {s : MStore} (hI : Inv s) :
    Inv (cancel_booking bid tq now s).1 := by
  unfold cancel_booking
  cases hfo : find_one s "cancellationtoken" (.byBookingToken bid tq) with
  | none => simpa using hI
  | some w =>
    by_cases hid : isValidId bid = true
    · simpa [hid] using inv_update_one bid _ hI
    · simpa [hid] using hI

theorem inv_modify (bid tq : String) (date time : Option String) (now : Nat)
    {s : MStore} (hI : Inv s) : Inv (modify_booking bid tq date time now s).1 := by
  unfold modify_booking
  cases hfo : find_one s "cancellationtoken" (.byBookingToken bid tq) with
  | none => simpa using hI
  | some w =>
    by_cases hch : (truthyStr date || truthyStr time) = true
    · by_cases hid : isValidId bid = true
      · simpa [hch, hid] using inv_update_one bid _ hI
      · simpa [hch, hid] using hI
    · simpa [hch] using hI

theorem inv_delete (bid tq : String) {s : MStore} (hI : Inv s) :
    Inv (delete_booking bid tq s).1 := by
  unfold delete_booking
  cases hfo : find_one s "cancellationtoken" (.byBookingToken bid tq) with
  | none => simpa using hI
  | some w =>
    by_cases hid : isValidId bid = true
    · simpa [hid, delete_one] using inv_delete_core bid hI
    · simpa [hid] using hI

theorem inv_empty : Inv emptyStore := by
  refine ⟨?_, ?_, ?_, ?_⟩ <;> simp [emptyStore, getColl, assocGet]

/-- Every reachable store satisfies the invariant. -/
theorem reachable_inv {s : MStore} (h : Reachable s) : Inv s := by
  induction h with
  | empty => exact inv_empty
  | create baseUrl env transportOk rand p hs ih => exact inv_create baseUrl env transportOk rand p ih
  | cancel bid tq now hs ih => exact inv_cancel bid tq now ih
  | modify bid tq date time now hs ih => exact inv_modify bid tq date time now ih
  | delete bid tq hs ih => exact inv_delete bid tq ih

/-! ## Characterisation of a successful creation -/

theorem find?_append_none {α : Type} {p : α → Bool} {l₁ l₂ : List α}
    (h : l₁.find? p = none) : (l₁ ++ l₂).find? p = l₂.find? p := by
  induction l₁ with
  | nil => simp
  | cons a rest ih =>
    rw [List.find?_eq_none] at h
    have ha : p a = false := by
      simpa using h a (List.mem_cons_self a rest)
    have hrest : rest.find? p = none := by
      rw [List.find?_eq_none]
      intro x hx
      exact h x (List.mem_cons_of_mem _ hx)
    simp [List.find?_cons, ha, ih hrest]

theorem create_ok (baseUrl : String) (env : TwilioEnv) (transportOk : Bool)
    (rand : Nat → Nat) (p : CreateBookingRequest) (s : MStore)
    (hv : pydanticValidBooking (mkBookingDoc p) = true) :
    create_booking baseUrl env transportOk rand p s =
      (createStore rand p s,
        .ok { id := freshId s.counter
              status := (mkBookingDoc p).status
              smsSent := attemptSms env transportOk
              paypalOrderId := (mkBookingDoc p).paypal_order_id
              cancelUrl := public_link baseUrl ("/api/bookings/" ++
                freshId s.counter ++ "/cancel?token=" ++ token_urlsafe24 rand)
              modifyUrl := public_link baseUrl ("/api/bookings/" ++
                freshId s.counter ++ "/modify?token=" ++ token_urlsafe24 rand)
              token := some (token_urlsafe24 rand) }) := by
  simp [create_booking, hv, createStore, create_document]

theorem createStore_booking (rand : Nat → Nat) (p : CreateBookingRequest)
    (s : MStore) :
    getColl (createStore rand p s) "booking" =
      getColl s "booking" ++ [(freshId s.counter, Doc.booking (mkBookingDoc p))] := by
  unfold createStore
  rw [getColl_create_document_ne (by decide), getColl_create_document_self]

theorem createStore_tokens (rand : Nat → Nat) (p : CreateBookingRequest)
    (s : MStore) :
    getColl (createStore rand p s) "cancellationtoken" =
      getColl s "cancellationtoken" ++
        [(freshId (s.counter + 1),
          Doc.ctoken ⟨freshId s.counter, token_urlsafe24 rand⟩)] := by
  unfold createStore
  rw [getColl_create_document_self, getColl_create_document_ne (by decide),
    counter_create_document]

theorem createStore_counter (rand : Nat → Nat) (p : CreateBookingRequest)
    (s : MStore) : (createStore rand p s).counter = s.counter + 2 := rfl

/-- No stored booking is keyed by the id the next insertion will generate. -/
theorem no_old_booking_key {s : MStore} (hI : Inv s) :
    (getColl s "booking").find? (fun q => q.1 = freshId s.counter) = none := by
  rw [List.find?_eq_none]
  intro q hq
  obtain ⟨k, hk1, hk2⟩ := hI.booking_keys q hq
  simp only [decide_eq_true_eq]
  intro he
  rw [hk1] at he
  exact absurd (freshId_inj he) (Nat.ne_of_lt hk2)

/-- No stored token references the id the next insertion will generate. -/
theorem no_old_token_ref {s : MStore} (hI : Inv s) :
    ∀ q ∈ getColl s "cancellationtoken", ∀ td, q.2 = Doc.ctoken td →
      td.booking_id ≠ freshId s.counter := by
  intro q hq td htd he
  obtain ⟨t, ht1, _, k, hk1, hk2, _⟩ := hI.tokens_ok q hq
  rw [htd] at ht1
  cases ht1
  rw [hk1] at he
  exact absurd (freshId_inj he) (Nat.ne_of_lt hk2)

/-- After a successful creation the fresh booking document is stored under
the returned id. -/
theorem createStore_storedBooking {s : MStore} (hI : Inv s) (rand : Nat → Nat)
    (p : CreateBookingRequest) :
    storedBooking (createStore rand p s) (freshId s.counter) =
      some (mkBookingDoc p) := by
  unfold storedBooking
  rw [createStore_booking, find?_append_none (no_old_booking_key hI)]
  simp

/-! ## Consequences of a successful authorization -/

/-- Inverting `authorize` on a reachable store: the booking id named by the
matching token is a well-formed generated id and its booking document is
present (first match under that key). -/
theorem authorize_spec {s : MStore} (hI : Inv s) {bid t : String}
    (h : authorize s bid t = true) :
    isValidId bid = true ∧
      ∃ b, (getColl s "booking").find? (fun q => q.1 = bid) = some (bid, Doc.booking b) := by
  obtain ⟨w, hw⟩ := Option.isSome_iff_exists.mp h
  have hmem : w ∈ getColl s "cancellationtoken" := by
    unfold find_one at hw
    exact List.mem_of_find?_eq_some hw
  have hpred' : (fun q : String × Doc =>
      Filter.matches (.byBookingToken bid t) q.1 q.2) w = true := by
    unfold find_one at hw
    exact @List.find?_some _
      (fun q : String × Doc => Filter.matches (.byBookingToken bid t) q.1 q.2)
      w (getColl s "cancellationtoken") hw
  have hpred : Filter.matches (.byBookingToken bid t) w.1 w.2 = true := hpred'
  obtain ⟨td, htd, hlen, k, hk1, hk2, hk3⟩ := hI.tokens_ok w hmem
  rw [htd] at hpred
  simp only [Filter.matches, Bool.and_eq_true, decide_eq_true_eq] at hpred
  obtain ⟨hbid, -⟩ := hpred
  constructor
  · rw [← hbid, hk1]
    exact isValidId_freshId k
  · rw [hbid] at hk3
    obtain ⟨e, he, he2⟩ := List.mem_map.mp hk3
    have hsome : ((getColl s "booking").find? (fun q => q.1 = bid)).isSome := by
      rw [List.find?_isSome]
      exact ⟨e, he, by simp [he2]⟩
    obtain ⟨e', he'⟩ := Option.isSome_iff_exists.mp hsome
    obtain ⟨i0, d0⟩ := e'
    have hmem' : (i0, d0) ∈ getColl s "booking" := List.mem_of_find?_eq_some he'
    have hkey : i0 = bid := by simpa using List.find?_some he'
    obtain ⟨b, hb1, -⟩ := hI.booking_docs (i0, d0) hmem'
    simp only at hb1
    subst hkey
    refine ⟨b, ?_⟩
    rw [he', hb1]

theorem truthyStr_iff (o : Option String) :
    truthyStr o = true ↔ ∃ ref, o = some ref ∧ ref ≠ "" := by
  cases o <;> simp [truthyStr]

/-! ## Claims -/

/-- C5: for every booking and valid token, `modify` called with neither
`date` nor `time` supplied returns HTTP 400 "No changes provided" and
leaves the store completely unchanged. -/
theorem modify_without_changes_is_bad_request {s : MStore} {bid t : String}
    (h : authorize s bid t = true) (now : Nat) :
    modify_booking bid t none none now s =
      (s, .error ⟨400, "No changes provided"⟩) := by
  obtain ⟨w, hw⟩ := Option.isSome_iff_exists.mp h
  simp [modify_booking, hw, truthyStr]

/-- Witness for C5 at a concrete reachable store. -/
theorem modify_without_changes_is_bad_request_witness :
    modify_booking "i" tokA none none 9 storeA =
      (storeA, .error ⟨400, "No changes provided"⟩) :=
  modify_without_changes_is_bad_request (by rfl) 9

/-- C4: cancel with a valid token always sets the booking's status to
`cancelled` and records the update timestamp; the token collection is not
touched, so cancelling again with the same token still succeeds (HTTP
200, `ok = true`, no error). -/
theorem cancel_with_valid_token_cancels_and_is_idempotent {s : MStore}
    (hs : Reachable s) {bid t : String} (h : authorize s bid t = true)
    (now now2 : Nat) :
    ∃ s' n b, cancel_booking bid t now s = (s', .ok ⟨true, n⟩) ∧
      storedBooking s' bid = some b ∧ b.status = "cancelled" ∧
      b.updated_at = some now ∧
      getColl s' "cancellationtoken" = getColl s "cancellationtoken" ∧
      ∃ s'' n2, cancel_booking bid t now2 s' = (s'', .ok ⟨true, n2⟩) := by
  have hI := reachable_inv hs
  obtain ⟨w, hw⟩ := Option.isSome_iff_exists.mp h
  obtain ⟨hvalid, b0, hfind⟩ := authorize_spec hI h
  have hB : getColl (update_one s "booking" (.byId bid)
      { status := some "cancelled", updated_at := some now }).2 "booking" =
      (updateFirst (.byId bid)
        { status := some "cancelled", updated_at := some now }
        (getColl s "booking")).2 := by
    simp only [update_one]
    exact getColl_setColl_self ..
  have hT : getColl (update_one s "booking" (.byId bid)
      { status := some "cancelled", updated_at := some now }).2
      "cancellationtoken" = getColl s "cancellationtoken" := by
    simp only [update_one]
    exact getColl_setColl_ne _ (by decide) _
  have hw2 : find_one (update_one s "booking" (.byId bid)
      { status := some "cancelled", updated_at := some now }).2
      "cancellationtoken" (.byBookingToken bid t) = some w := by
    unfold find_one
    rw [hT]
    exact hw
  refine ⟨(update_one s "booking" (.byId bid)
      { status := some "cancelled", updated_at := some now }).2,
    (update_one s "booking" (.byId bid)
      { status := some "cancelled", updated_at := some now }).1,
    { b0 with status := "cancelled", updated_at := some now },
    by simp [cancel_booking, hw, hvalid], ?_, rfl, rfl, hT,
    (update_one (update_one s "booking" (.byId bid)
        { status := some "cancelled", updated_at := some now }).2
      "booking" (.byId bid)
      { status := some "cancelled", updated_at := some now2 }).2,
    (update_one (update_one s "booking" (.byId bid)
        { status := some "cancelled", updated_at := some now }).2
      "booking" (.byId bid)
      { status := some "cancelled", updated_at := some now2 }).1,
    by simp [cancel_booking, hw2, hvalid]⟩
  unfold storedBooking
  rw [hB, find?_updateFirst_byId, hfind]
  simp [applySet]

/-- Witness for C4 at a concrete reachable store. -/
theorem cancel_with_valid_token_cancels_and_is_idempotent_witness :
    ∃ s' n b, cancel_booking "i" tokA 5 storeA = (s', .ok ⟨true, n⟩) ∧
      storedBooking s' "i" = some b ∧ b.status = "cancelled" ∧
      b.updated_at = some 5 ∧
      getColl s' "cancellationtoken" = getColl storeA "cancellationtoken" ∧
      ∃ s'' n2, cancel_booking "i" tokA 7 s' = (s'', .ok ⟨true, n2⟩) :=
  cancel_with_valid_token_cancels_and_is_idempotent
    (Reachable.create "" envNone false rand0 payloadA Reachable.empty)
    (by rfl) 5 7

/-- C3: for every booking and valid token, `delete` removes the booking
document and every token document referencing that booking id; afterwards
any `authorize` on that id fails and the booking is absent; the response
reports one deleted booking document. -/
theorem delete_removes_booking_and_all_tokens {s : MStore} (hs : Reachable s)
    {bid t : String} (h : authorize s bid t = true) :
    ∃ s', delete_booking bid t s = (s', .ok ⟨true, 1⟩) ∧
      storedBooking s' bid = none ∧
      (∀ q ∈ getColl s' "cancellationtoken", ∀ td, q.2 = Doc.ctoken td →
        td.booking_id ≠ bid) ∧
      (∀ t', authorize s' bid t' = false) := by
  have hI := reachable_inv hs
  obtain ⟨w, hw⟩ := Option.isSome_iff_exists.mp h
  obtain ⟨hvalid, b0, hfind⟩ := authorize_spec hI h
  have hmem : (bid, Doc.booking b0) ∈ getColl s "booking" :=
    List.mem_of_find?_eq_some hfind
  have hn : (delete_one s "booking" (.byId bid)).1 = 1 :=
    deleteFirst_count_one hmem
  have hB : getColl (delete_many (delete_one s "booking" (.byId bid)).2
      "cancellationtoken" (.byBookingId bid)).2 "booking" =
      (deleteFirst (.byId bid) (getColl s "booking")).2 := by
    simp only [delete_many, delete_one]
    rw [getColl_setColl_ne _ (by decide)]
    rw [getColl_setColl_self]
  have hT : getColl (delete_many (delete_one s "booking" (.byId bid)).2
      "cancellationtoken" (.byBookingId bid)).2 "cancellationtoken" =
      (getColl s "cancellationtoken").filter
        (fun q => !(Filter.byBookingId bid).matches q.1 q.2) := by
    simp only [delete_many, delete_one]
    rw [getColl_setColl_self]
    rw [getColl_setColl_ne _ (by decide)]
  refine ⟨(delete_many (delete_one s "booking" (.byId bid)).2
      "cancellationtoken" (.byBookingId bid)).2,
    by simp [delete_booking, hw, hvalid, hn], ?_, ?_, ?_⟩
  · unfold storedBooking
    rw [hB, find?_deleteFirst_byId_of_nodup hI.booking_nodup]
  · intro q hq td htd
    rw [hT] at hq
    obtain ⟨hqmem, hqflt⟩ := List.mem_filter.mp hq
    rw [htd] at hqflt
    simpa [Filter.matches] using hqflt
  · intro t'
    have hnone : find_one (delete_many (delete_one s "booking" (.byId bid)).2
        "cancellationtoken" (.byBookingId bid)).2 "cancellationtoken"
        (.byBookingToken bid t') = none := by
      unfold find_one
      rw [hT, List.find?_eq_none]
      intro q hq
      obtain ⟨hqmem, hqflt⟩ := List.mem_filter.mp hq
      cases hq2 : q.2 with
      | booking b => simp [Filter.matches, hq2]
      | ctoken td =>
        rw [hq2] at hqflt
        simp only [Filter.matches, Bool.not_eq_true', decide_eq_false_iff_not] at hqflt
        simp [Filter.matches, hq2, hqflt]
    simp [authorize, hnone]

/-- Witness for C3 at a concrete reachable store. -/
theorem delete_removes_booking_and_all_tokens_witness :
    ∃ s', delete_booking "i" tokA storeA = (s', .ok ⟨true, 1⟩) ∧
      storedBooking s' "i" = none ∧
      (∀ q ∈ getColl s' "cancellationtoken", ∀ td, q.2 = Doc.ctoken td →
        td.booking_id ≠ "i") ∧
      (∀ t', authorize s' "i" t' = false) :=
  delete_removes_booking_and_all_tokens
    (Reachable.create "" envNone false rand0 payloadA Reachable.empty)
    (by rfl)

/-- C8: every token stored by `create` is non-empty (32 characters of
`token_urlsafe`), so on any reachable store a cancel/modify/delete call
with the token query parameter absent (defaulted to `""`) or empty is
rejected with HTTP 403 and the store is left unchanged. -/
theorem empty_token_never_authorizes {s : MStore} (hs : Reachable s) :
    (∀ q ∈ getColl s "cancellationtoken", ∀ td, q.2 = Doc.ctoken td →
      td.token ≠ "") ∧
    (∀ bid now, cancel_booking bid "" now s =
      (s, .error ⟨403, "Invalid token"⟩)) ∧
    (∀ bid date time now, modify_booking bid "" date time now s =
      (s, .error ⟨403, "Invalid token"⟩)) ∧
    (∀ bid, delete_booking bid "" s = (s, .error ⟨403, "Invalid token"⟩)) := by
  have hI := reachable_inv hs
  have hne : ∀ q ∈ getColl s "cancellationtoken", ∀ td, q.2 = Doc.ctoken td →
      td.token ≠ "" := by
    intro q hq td htd he
    obtain ⟨t0, ht1, hlen, -⟩ := hI.tokens_ok q hq
    rw [htd] at ht1
    cases ht1
    rw [he] at hlen
    simp at hlen
  have hfo : ∀ bid, find_one s "cancellationtoken"
      (.byBookingToken bid "") = none := by
    intro bid
    unfold find_one
    rw [List.find?_eq_none]
    intro q hq
    cases hq2 : q.2 with
    | booking b => simp [Filter.matches, hq2]
    | ctoken td => simp [Filter.matches, hq2, hne q hq td hq2]
  refine ⟨hne, ?_, ?_, ?_⟩
  · intro bid now
    simp [cancel_booking, hfo bid]
  · intro bid date time now
    simp [modify_booking, hfo bid]
  · intro bid
    simp [delete_booking, hfo bid]

/-- Witness for C8 at a concrete reachable store. -/
theorem empty_token_never_authorizes_witness :
    (∀ q ∈ getColl storeA "cancellationtoken", ∀ td, q.2 = Doc.ctoken td →
      td.token ≠ "") ∧
    (∀ bid now, cancel_booking bid "" now storeA =
      (storeA, .error ⟨403, "Invalid token"⟩)) ∧
    (∀ bid date time now, modify_booking bid "" date time now storeA =
      (storeA, .error ⟨403, "Invalid token"⟩)) ∧
    (∀ bid, delete_booking bid "" storeA =
      (storeA, .error ⟨403, "Invalid token"⟩)) :=
  empty_token_never_authorizes
    (Reachable.create "" envNone false rand0 payloadA Reachable.empty)

/-- C2: immediately after a creation, exactly one token document
references the new booking's id, and `authorize` on that id succeeds for
exactly the returned token string (exact equality match); every other
string is rejected. -/
theorem create_issues_exactly_one_valid_token {s : MStore} (hs : Reachable s)
    (baseUrl : String) (env : TwilioEnv) (transportOk : Bool) (rand : Nat → Nat)
    (p : CreateBookingRequest) (hv : pydanticValidBooking (mkBookingDoc p) = true) :
    ∃ s' r tok, create_booking baseUrl env transportOk rand p s = (s', .ok r) ∧
      r.token = some tok ∧
      (getColl s' "cancellationtoken").filter
        (fun q => (Filter.byBookingId r.id).matches q.1 q.2) =
        [(freshId (s.counter + 1), Doc.ctoken ⟨r.id, tok⟩)] ∧
      ∀ t', authorize s' r.id t' = true ↔ t' = tok := by
  have hI := reachable_inv hs
  refine ⟨createStore rand p s, _, token_urlsafe24 rand,
    create_ok baseUrl env transportOk rand p s hv, rfl, ?_, ?_⟩
  · show (getColl (createStore rand p s) "cancellationtoken").filter
        (fun q => (Filter.byBookingId (freshId s.counter)).matches q.1 q.2) =
      [(freshId (s.counter + 1),
        Doc.ctoken ⟨freshId s.counter, token_urlsafe24 rand⟩)]
    have hold : (getColl s "cancellationtoken").filter
        (fun q => (Filter.byBookingId (freshId s.counter)).matches q.1 q.2) =
        [] := by
      rw [List.filter_eq_nil_iff]
      intro q hq
      cases hq2 : q.2 with
      | booking b => simp [Filter.matches, hq2]
      | ctoken td => simp [Filter.matches, hq2, no_old_token_ref hI q hq td hq2]
    rw [createStore_tokens, List.filter_append, hold]
    simp [Filter.matches]
  · intro t'
    show authorize (createStore rand p s) (freshId s.counter) t' = true ↔
      t' = token_urlsafe24 rand
    unfold authorize find_one
    rw [createStore_tokens]
    have hnone : (getColl s "cancellationtoken").find?
        (fun q => (Filter.byBookingToken (freshId s.counter) t').matches q.1 q.2) =
        none := by
      rw [List.find?_eq_none]
      intro q hq
      cases hq2 : q.2 with
      | booking b => simp [Filter.matches, hq2]
      | ctoken td => simp [Filter.matches, hq2, no_old_token_ref hI q hq td hq2]
    rw [find?_append_none hnone]
    by_cases he : t' = token_urlsafe24 rand
    · simp [Filter.matches, List.find?, he]
    · simp [Filter.matches, List.find?, he, Ne.symm he]

/-- Witness for C2 on the empty store. -/
theorem create_issues_exactly_one_valid_token_witness :
    ∃ s' r tok, create_booking "" envNone false rand0 payloadA emptyStore =
        (s', .ok r) ∧
      r.token = some tok ∧
      (getColl s' "cancellationtoken").filter
        (fun q => (Filter.byBookingId r.id).matches q.1 q.2) =
        [(freshId (emptyStore.counter + 1), Doc.ctoken ⟨r.id, tok⟩)] ∧
      ∀ t', authorize s' r.id t' = true ↔ t' = tok :=
  create_issues_exactly_one_valid_token Reachable.empty "" envNone false rand0
    payloadA (by decide)

/-- C1 counterexample: a creation request whose payment-order reference
is supplied but equal to the empty string is persisted with status
`pending`, not `confirmed` — Python's `if payload.paypalOrderId` is a
truthiness test, so the claimed "supplied iff confirmed" fails. -/
theorem create_status_counterexample :
    ∃ s' r, create_booking "" envNone false rand0 payloadEmptyRef emptyStore =
        (s', Except.ok r) ∧
      payloadEmptyRef.paypalOrderId.isSome = true ∧
      r.paypalOrderId = some "" ∧
      ¬(r.status = "confirmed") := by
  exact ⟨_, _, rfl, rfl, rfl, by decide⟩

/-- C1 (amended): the status returned by `create` and persisted in the
booking document is `confirmed` iff a *non-empty* payment-order reference
was supplied, else `pending`. -/
theorem create_status_confirmed_iff_nonempty_ref {s : MStore} (hs : Reachable s)
    (baseUrl : String) (env : TwilioEnv) (transportOk : Bool) (rand : Nat → Nat)
    (p : CreateBookingRequest)
    (hv : pydanticValidBooking (mkBookingDoc p) = true) :
    ∃ s' r, create_booking baseUrl env transportOk rand p s = (s', .ok r) ∧
      (r.status = "confirmed" ↔ ∃ ref, p.paypalOrderId = some ref ∧ ref ≠ "") ∧
      (r.status = "pending" ↔ ¬∃ ref, p.paypalOrderId = some ref ∧ ref ≠ "") ∧
      ∃ b, storedBooking s' r.id = some b ∧ b.status = r.status := by
  have hI := reachable_inv hs
  refine ⟨createStore rand p s, _,
    create_ok baseUrl env transportOk rand p s hv, ?_, ?_, ?_⟩
  · show (mkBookingDoc p).status = "confirmed" ↔
      ∃ ref, p.paypalOrderId = some ref ∧ ref ≠ ""
    rw [← truthyStr_iff]
    by_cases ht : truthyStr p.paypalOrderId = true
    · simp [mkBookingDoc, ht]
    · simp [mkBookingDoc, ht]
  · show (mkBookingDoc p).status = "pending" ↔
      ¬∃ ref, p.paypalOrderId = some ref ∧ ref ≠ ""
    rw [← truthyStr_iff]
    by_cases ht : truthyStr p.paypalOrderId = true
    · simp [mkBookingDoc, ht]
    · simp [mkBookingDoc, ht]
  · show ∃ b, storedBooking (createStore rand p s) (freshId s.counter) =
        some b ∧ b.status = (mkBookingDoc p).status
    exact ⟨mkBookingDoc p, createStore_storedBooking hI rand p, rfl⟩

/-- Witness for the amended C1, with a non-empty reference supplied. -/
theorem create_status_confirmed_iff_nonempty_ref_witness :
    ∃ s' r, create_booking "" envNone false rand0 payloadPaid emptyStore =
        (s', .ok r) ∧
      (r.status = "confirmed" ↔
        ∃ ref, payloadPaid.paypalOrderId = some ref ∧ ref ≠ "") ∧
      (r.status = "pending" ↔
        ¬∃ ref, payloadPaid.paypalOrderId = some ref ∧ ref ≠ "") ∧
      ∃ b, storedBooking s' r.id = some b ∧ b.status = r.status :=
  create_status_confirmed_iff_nonempty_ref Reachable.empty "" envNone false
    rand0 payloadPaid (by decide)

/-- C6: modify patches only the supplied fields — patching only the date
leaves the stored time (and every other field except the update
timestamp) unchanged, and symmetrically for the time. -/
theorem modify_patches_only_supplied_fields {s : MStore} (hs : Reachable s)
    {bid t : String} (h : authorize s bid t = true) {d ti : String}
    (hd : d ≠ "") (hti : ti ≠ "") (now : Nat) :
    (∃ s' n b, modify_booking bid t (some d) none now s = (s', .ok ⟨true, n⟩) ∧
      storedBooking s bid = some b ∧
      storedBooking s' bid = some { b with date := d, updated_at := some now }) ∧
    (∃ s' n b, modify_booking bid t none (some ti) now s = (s', .ok ⟨true, n⟩) ∧
      storedBooking s bid = some b ∧
      storedBooking s' bid = some { b with time := ti, updated_at := some now }) := by
  have hI := reachable_inv hs
  obtain ⟨w, hw⟩ := Option.isSome_iff_exists.mp h
  obtain ⟨hvalid, b0, hfind⟩ := authorize_spec hI h
  constructor
  · have hB : getColl (update_one s "booking" (.byId bid)
        { date := some d, updated_at := some now }).2 "booking" =
        (updateFirst (.byId bid) { date := some d, updated_at := some now }
          (getColl s "booking")).2 := by
      simp only [update_one]
      exact getColl_setColl_self ..
    refine ⟨(update_one s "booking" (.byId bid)
        { date := some d, updated_at := some now }).2,
      (update_one s "booking" (.byId bid)
        { date := some d, updated_at := some now }).1,
      b0, ?_, ?_, ?_⟩
    · simp [modify_booking, hw, hvalid, truthyStr, hd]
    · unfold storedBooking
      rw [hfind]
    · unfold storedBooking
      rw [hB, find?_updateFirst_byId, hfind]
      simp [applySet]
  · have hB : getColl (update_one s "booking" (.byId bid)
        { time := some ti, updated_at := some now }).2 "booking" =
        (updateFirst (.byId bid) { time := some ti, updated_at := some now }
          (getColl s "booking")).2 := by
      simp only [update_one]
      exact getColl_setColl_self ..
    refine ⟨(update_one s "booking" (.byId bid)
        { time := some ti, updated_at := some now }).2,
      (update_one s "booking" (.byId bid)
        { time := some ti, updated_at := some now }).1,
      b0, ?_, ?_, ?_⟩
    · simp [modify_booking, hw, hvalid, truthyStr, hti]
    · unfold storedBooking
      rw [hfind]
    · unfold storedBooking
      rw [hB, find?_updateFirst_byId, hfind]
      simp [applySet]

/-- Witness for C6: create with date 2025-06-01 and time 14:30, then
modify only one of the two fields. -/
theorem modify_patches_only_supplied_fields_witness :
    (∃ s' n b, modify_booking "i" tokA (some "2025-06-05") none 9 storeA =
        (s', .ok ⟨true, n⟩) ∧
      storedBooking storeA "i" = some b ∧
      storedBooking s' "i" = some { b with date := "2025-06-05", updated_at := some 9 }) ∧
    (∃ s' n b, modify_booking "i" tokA none (some "15:00") 9 storeA =
        (s', .ok ⟨true, n⟩) ∧
      storedBooking storeA "i" = some b ∧
      storedBooking s' "i" = some { b with time := "15:00", updated_at := some 9 }) :=
  modify_patches_only_supplied_fields
    (Reachable.create "" envNone false rand0 payloadA Reachable.empty)
    (by rfl) (by decide) (by decide) 9

/-- C7: notification failure never fails booking creation.  Creation
always completes with the same store and the same response apart from the
`smsSent` flag; missing credentials make the send a no-op reported as
`false`, and a transport failure is swallowed and reported as `false`. -/
theorem notification_failure_never_fails_creation (baseUrl : String)
    (env : TwilioEnv) (transportOk : Bool) (rand : Nat → Nat)
    (p : CreateBookingRequest) (s : MStore)
    (hv : pydanticValidBooking (mkBookingDoc p) = true) :
    ∃ s' r, create_booking baseUrl env transportOk rand p s = (s', .ok r) ∧
      r.smsSent = attemptSms env transportOk ∧
      (twilioConfigured env = false → r.smsSent = false) ∧
      (transportOk = false → r.smsSent = false) ∧
      ∀ env2 ok2, create_booking baseUrl env2 ok2 rand p s =
        (s', .ok { r with smsSent := attemptSms env2 ok2 }) := by
  refine ⟨createStore rand p s, _,
    create_ok baseUrl env transportOk rand p s hv, rfl, ?_, ?_, ?_⟩
  · intro hc
    show attemptSms env transportOk = false
    simp [attemptSms, hc]
  · intro hok
    show attemptSms env transportOk = false
    simp [attemptSms, hok]
  · intro env2 ok2
    rw [create_ok baseUrl env2 ok2 rand p s hv]

/-- Witness for C7: configured credentials but a failing transport. -/
theorem notification_failure_never_fails_creation_witness :
    ∃ s' r, create_booking "" envFull false rand0 payloadA emptyStore =
        (s', .ok r) ∧
      r.smsSent = attemptSms envFull false ∧
      (twilioConfigured envFull = false → r.smsSent = false) ∧
      (false = false → r.smsSent = false) ∧
      ∀ env2 ok2, create_booking "" env2 ok2 rand0 payloadA emptyStore =
        (s', .ok { r with smsSent := attemptSms env2 ok2 }) :=
  notification_failure_never_fails_creation "" envFull false rand0 payloadA
    emptyStore (by decide)

/-- C10: the persisted booking document's `sms_confirmed` flag is `false`
on every reachable store — even when the notification is actually sent
(`smsSent = true` in the response), nothing is written back. -/
theorem sms_confirmed_never_persisted {s : MStore} (hs : Reachable s) :
    (∀ q ∈ getColl s "booking", ∀ b, q.2 = Doc.booking b →
      b.sms_confirmed = false) ∧
    ∀ baseUrl rand p, pydanticValidBooking (mkBookingDoc p) = true →
      ∃ s' r, create_booking baseUrl envFull true rand p s = (s', .ok r) ∧
        r.smsSent = true ∧
        ∃ b, storedBooking s' r.id = some b ∧ b.sms_confirmed = false := by
  have hI := reachable_inv hs
  constructor
  · intro q hq b hb
    obtain ⟨b', hb1, hb2⟩ := hI.booking_docs q hq
    rw [hb] at hb1
    cases hb1
    exact hb2
  · intro baseUrl rand p hv
    refine ⟨createStore rand p s, _, create_ok baseUrl envFull true rand p s hv,
      rfl, mkBookingDoc p, ?_, rfl⟩
    show storedBooking (createStore rand p s) (freshId s.counter) =
      some (mkBookingDoc p)
    exact createStore_storedBooking hI rand p

/-- Witness for C10 on the empty store. -/
theorem sms_confirmed_never_persisted_witness :
    (∀ q ∈ getColl emptyStore "booking", ∀ b, q.2 = Doc.booking b →
      b.sms_confirmed = false) ∧
    ∀ baseUrl rand p, pydanticValidBooking (mkBookingDoc p) = true →
      ∃ s' r, create_booking baseUrl envFull true rand p emptyStore =
          (s', .ok r) ∧
        r.smsSent = true ∧
        ∃ b, storedBooking s' r.id = some b ∧ b.sms_confirmed = false :=
  sms_confirmed_never_persisted Reachable.empty

/-- C9 counterexample: the token documents are stored in a collection
named "cancellationtoken", not "cancellation_token": after a creation the
latter collection is empty while the former holds the token document. -/
theorem token_collection_name_counterexample :
    ∃ s' r, create_booking "" envNone false rand0 payloadA emptyStore =
        (s', Except.ok r) ∧
      getColl s' "cancellation_token" = [] ∧
      getColl s' "cancellationtoken" ≠ [] :=
  ⟨_, _, rfl, rfl, by decide⟩

/-- C9 (amended): token documents, with fields `booking_id` and `token`,
live in the collection named "cancellationtoken": `create` inserts the
CancellationToken document there, and the cancel/modify/delete
authorization outcome is exactly the result of the `findOne` lookup in
that same collection. -/
theorem tokens_live_in_cancellationtoken_collection {s : MStore}
    (baseUrl : String) (env : TwilioEnv) (transportOk : Bool)
    (rand : Nat → Nat) (p : CreateBookingRequest)
    (hv : pydanticValidBooking (mkBookingDoc p) = true) :
    (∃ s' r tok, create_booking baseUrl env transportOk rand p s = (s', .ok r) ∧
      r.token = some tok ∧
      (freshId (s.counter + 1), Doc.ctoken ⟨r.id, tok⟩) ∈
        getColl s' "cancellationtoken") ∧
    (∀ bid tq now, (cancel_booking bid tq now s).2 =
        .error ⟨403, "Invalid token"⟩ ↔
      find_one s "cancellationtoken" (.byBookingToken bid tq) = none) ∧
    (∀ bid tq date time now, (modify_booking bid tq date time now s).2 =
        .error ⟨403, "Invalid token"⟩ ↔
      find_one s "cancellationtoken" (.byBookingToken bid tq) = none) ∧
    (∀ bid tq, (delete_booking bid tq s).2 = .error ⟨403, "Invalid token"⟩ ↔
      find_one s "cancellationtoken" (.byBookingToken bid tq) = none) := by
  refine ⟨?_, ?_, ?_, ?_⟩
  · refine ⟨createStore rand p s, _, token_urlsafe24 rand,
      create_ok baseUrl env transportOk rand p s hv, rfl, ?_⟩
    show (freshId (s.counter + 1),
        Doc.ctoken ⟨freshId s.counter, token_urlsafe24 rand⟩) ∈
      getColl (createStore rand p s) "cancellationtoken"
    rw [createStore_tokens]
    exact List.mem_append_right _ (by simp)
  · intro bid tq now
    cases hfo : find_one s "cancellationtoken" (.byBookingToken bid tq) with
    | none => simp [cancel_booking, hfo]
    | some w =>
      by_cases hid : isValidId bid = true <;>
        simp [cancel_booking, hfo, hid]
  · intro bid tq date time now
    cases hfo : find_one s "cancellationtoken" (.byBookingToken bid tq) with
    | none => simp [modify_booking, hfo]
    | some w =>
      by_cases hch : (truthyStr date || truthyStr time) = true
      · by_cases hid : isValidId bid = true <;>
          simp [modify_booking, hfo, hch, hid]
      · simp [modify_booking, hfo, hch]
  · intro bid tq
    cases hfo : find_one s "cancellationtoken" (.byBookingToken bid tq) with
    | none => simp [delete_booking, hfo]
    | some w =>
      by_cases hid : isValidId bid = true <;>
        simp [delete_booking, hfo, hid]

/-- Witness for the amended C9 on the empty store. -/
theorem tokens_live_in_cancellationtoken_collection_witness :
    (∃ s' r tok, create_booking "" envNone false rand0 payloadA emptyStore =
        (s', .ok r) ∧
      r.token = some tok ∧
      (freshId (emptyStore.counter + 1), Doc.ctoken ⟨r.id, tok⟩) ∈
        getColl s' "cancellationtoken") ∧
    (∀ bid tq now, (cancel_booking bid tq now emptyStore).2 =
        .error ⟨403, "Invalid token"⟩ ↔
      find_one emptyStore "cancellationtoken" (.byBookingToken bid tq) = none) ∧
    (∀ bid tq date time now, (modify_booking bid tq date time now emptyStore).2 =
        .error ⟨403, "Invalid token"⟩ ↔
      find_one emptyStore "cancellationtoken" (.byBookingToken bid tq) = none) ∧
    (∀ bid tq, (delete_booking bid tq emptyStore).2 =
        .error ⟨403, "Invalid token"⟩ ↔
      find_one emptyStore "cancellationtoken" (.byBookingToken bid tq) = none) :=
  tokens_live_in_cancellationtoken_collection "" envNone false rand0 payloadA
    (by decide)

end MassageBooking
